import Mathlib

/-
Verification of the scroll-reveal / hero-animation subsystem of the
fendo-website repository.

Two components are embedded:

* the Hero Timed Animation Sequencer
  (src/frontend/app/components/home/HeroSection.tsx): a four-phase
  timer-driven state machine (idle, rolling, dropping, done) positioning a
  decorative element from live layout measurements;

* the Scroll Reveal Controller
  (src/frontend/app/components/ScrollReveal.tsx): a one-shot
  IntersectionObserver-driven reveal of wrapped content.

Pixel coordinates are modelled as rationals; the JavaScript Math.round is
modelled exactly as floor (x + 1/2).  Timer chains are modelled as a state
holding the list of pending (absolute fire time, event) pairs, stepped by
firing the earliest pending timer; measurements read from an environment
stream of optional bounding boxes, one entry per measurement call.
-/

namespace Fendo

/-- A DOMRect restricted to the fields the component reads. -/
structure Rect where
  top : ℚ
  left : ℚ
  width : ℚ
  height : ℚ
deriving DecidableEq

/-- JavaScript Math.round for the nonnegative-and-ordinary range used here:
round half toward positive infinity. -/
def jsRound (x : ℚ) : Int := Int.floor (x + 1/2)

/-- The BallCfg record of HeroSection.tsx. -/
structure BallCfg where
  size : ℚ
  top : ℚ
  startX : ℚ
  targetX : ℚ
deriving DecidableEq

/-- The size computed by measure() in HeroSection.tsx:
Math.max(Math.round(pr.height * 0.45), 12). -/
def ballSize (pr : Rect) : ℚ := max ((jsRound (pr.height * (45/100)) : ℤ) : ℚ) 12

/-- The geometry computation inside measure() of HeroSection.tsx, given the
two successfully obtained bounding boxes (pr = period target, sr = section
container). -/
def mkBall (pr sr : Rect) : BallCfg :=
  { size := ballSize pr
    top := pr.top - sr.top + (pr.height - ballSize pr) / 2
    startX := -(ballSize pr + 16)
    targetX := pr.left - sr.left + (pr.width - ballSize pr) / 2 }

/-- The measure() closure of HeroSection.tsx: each getBoundingClientRect call
may fail (ref not mounted / not laid out); if either fails the result is
null. -/
def measure : Option Rect × Option Rect → Option BallCfg
  | (some pr, some sr) => some (mkBall pr sr)
  | (none, _) => none
  | (some _, none) => none

/-- The four animation phases of HeroSection.tsx. -/
inductive Phase where
  | idle
  | rolling
  | dropping
  | done
deriving DecidableEq

/-- The four distinct timer callbacks of the HeroSection effect chain. -/
inductive TimerEv where
  | snapshot
  | beginRoll
  | dropBall
  | finishDrop
deriving DecidableEq

/-- State of one mounted HeroSection instance: current phase and ball state,
pending timers as (absolute fire time, callback) pairs, the stream of
measurement results the environment will provide (one entry consumed per
measure() call), a mounted flag, and the current time. -/
structure HeroState where
  mounted : Bool
  now : Nat
  phase : Phase
  ball : BallCfg
  timers : List (Nat × TimerEv)
  env : List (Option Rect × Option Rect)
deriving DecidableEq

/-- Initial ball state from useState in HeroSection.tsx. -/
def initBall : BallCfg := { size := 32, top := 0, startX := -60, targetX := 0 }

/-- State right after mount: the effect checks prefers-reduced-motion and, if
it matches, returns without scheduling anything; otherwise it schedules the
80ms snapshot timer and the 1400ms animation-start timer. -/
def heroInit (reduced : Bool) (env : List (Option Rect × Option Rect)) : HeroState :=
  { mounted := true
    now := 0
    phase := .idle
    ball := initBall
    timers := if reduced then [] else [(80, .snapshot), (1400, .beginRoll)]
    env := env }

/-- Body of each timer callback of HeroSection.tsx, fired at absolute time t
with remaining pending timers rest. -/
def applyTimer (s : HeroState) (t : Nat) (ev : TimerEv) (rest : List (Nat × TimerEv)) :
    HeroState :=
  match ev with
  | .snapshot =>
      match measure (s.env.headD (none, none)) with
      | some cfg =>
          { s with now := t, timers := rest, env := s.env.tail, ball := cfg }
      | none =>
          { s with now := t, timers := rest, env := s.env.tail }
  | .beginRoll =>
      match measure (s.env.headD (none, none)) with
      | some cfg =>
          { s with now := t, timers := rest ++ [(t + 1450, .dropBall)],
                   env := s.env.tail, ball := cfg, phase := .rolling }
      | none =>
          { s with now := t, timers := rest, env := s.env.tail }
  | .dropBall =>
      { s with now := t, timers := rest ++ [(t + 420, .finishDrop)], phase := .dropping }
  | .finishDrop =>
      { s with now := t, timers := rest, phase := .done }

/-- Fire the earliest pending timer (the browser event loop delivers the
chained timers in scheduling order).  After unmount all timers have been
cleared and callbacks cannot run. -/
def fireTimer (s : HeroState) : HeroState :=
  if s.mounted = false then s
  else
    match s.timers with
    | [] => s
    | (t, ev) :: rest => applyTimer s t ev rest

/-- External happenings driving one HeroSection instance: the next pending
timer fires, or React unmounts the component (running the effect cleanup,
which clears every collected timer handle). -/
inductive HInput where
  | fire
  | unmount

/-- One step of the sequencer. -/
def hStep (s : HeroState) : HInput → HeroState
  | .fire => fireTimer s
  | .unmount => { s with mounted := false, timers := [] }

/-- Run a list of inputs from a state. -/
def heroRun (s : HeroState) : List HInput → HeroState
  | [] => s
  | i :: is => heroRun (hStep s i) is

/-- Sequence of phase values observed along a run (including the initial
state). -/
def phaseTrace (s : HeroState) : List HInput → List Phase
  | [] => [s.phase]
  | i :: is => s.phase :: phaseTrace (hStep s i) is

/-- Collapse adjacent duplicates, leaving the sequence of observed distinct
phase values in order. -/
def collapse : List Phase → List Phase
  | [] => []
  | [p] => [p]
  | p :: q :: r => if p = q then collapse (q :: r) else p :: collapse (q :: r)

/-- First list is an initial segment of the second. -/
def IsFrontOf (l₁ l₂ : List Phase) : Prop := ∃ t, l₁ ++ t = l₂

/-- The canonical forward phase order. -/
def phaseOrder : List Phase := [.idle, .rolling, .dropping, .done]

/-- The canonical order starting from a given phase. -/
def canonFrom : Phase → List Phase
  | .idle => [.idle, .rolling, .dropping, .done]
  | .rolling => [.rolling, .dropping, .done]
  | .dropping => [.dropping, .done]
  | .done => [.done]

/-- Successor along the forward phase order. -/
def nextPhase : Phase → Phase
  | .idle => .rolling
  | .rolling => .dropping
  | .dropping => .done
  | .done => .done

/-- Shape invariant tying the pending timers of HeroSection to its phase:
the chain is [snapshot, beginRoll] or [beginRoll] while idle, [dropBall]
while rolling, [finishDrop] while dropping, or empty. -/
def timerShape (s : HeroState) : Prop :=
  (∃ t₁ t₂, s.timers = [(t₁, .snapshot), (t₂, .beginRoll)] ∧ s.phase = .idle) ∨
  (∃ t, s.timers = [(t, .beginRoll)] ∧ s.phase = .idle) ∨
  (∃ t, s.timers = [(t, .dropBall)] ∧ s.phase = .rolling) ∨
  (∃ t, s.timers = [(t, .finishDrop)] ∧ s.phase = .dropping) ∨
  s.timers = []

/-- The wrapper style computed by wrapStyle() in HeroSection.tsx, restricted
to the css properties it sets.  In the done phase the function returns only
display none. -/
structure WrapStyle where
  width : Option ℚ
  height : Option ℚ
  top : Option ℚ
  leftPos : Option ℚ
  opacity : Option ℚ
  translateY : Option Int
  scaleNum : Option ℚ
  hiddenDisplay : Bool
deriving DecidableEq

/-- The wrapStyle() switch of HeroSection.tsx. -/
def wrapStyle (s : HeroState) : WrapStyle :=
  match s.phase with
  | .idle =>
      { width := some s.ball.size, height := some s.ball.size, top := some s.ball.top
        leftPos := some s.ball.startX, opacity := some 0
        translateY := none, scaleNum := none, hiddenDisplay := false }
  | .rolling =>
      { width := some s.ball.size, height := some s.ball.size, top := some s.ball.top
        leftPos := some s.ball.targetX, opacity := some 1
        translateY := none, scaleNum := none, hiddenDisplay := false }
  | .dropping =>
      { width := some s.ball.size, height := some s.ball.size, top := some s.ball.top
        leftPos := some s.ball.targetX, opacity := some 0
        translateY := some (jsRound (s.ball.size * (55/100)))
        scaleNum := some (5/100), hiddenDisplay := false }
  | .done =>
      { width := none, height := none, top := none
        leftPos := none, opacity := none
        translateY := none, scaleNum := none, hiddenDisplay := true }

/-- Whether the golf-ball element is present in the render tree: the JSX
renders it exactly when phase is not done. -/
def renderedBall (s : HeroState) : Bool :=
  match s.phase with
  | .done => false
  | _ => true

/-- The size formula as the specification words it, without rounding:
max of 45 percent of the target height and the 12px floor. -/
def specSize (h : ℚ) : ℚ := max (h * (45/100)) 12

/-- The direction prop of ScrollReveal.tsx. -/
inductive Dir where
  | left
  | right
deriving DecidableEq

/-- Value of the data-reveal attribute of the wrapped element: absent (as
server-rendered), set to the hiding direction, or set to visible. -/
inductive Reveal where
  | unset
  | hiddenDir (d : Dir)
  | visible
deriving DecidableEq

/-- State of one ScrollReveal element instance: whether it is still mounted,
its data-reveal attribute, how many animation-frame callbacks of the double
requestAnimationFrame chain are still pending (2 = first pending, 1 = second
pending, 0 = none), and whether the IntersectionObserver is currently
observing the element. -/
structure SRState where
  mounted : Bool
  reveal : Reveal
  rafPending : Nat
  observing : Bool
deriving DecidableEq

/-- The freshly rendered element before the effect runs. -/
def srInit : SRState :=
  { mounted := true, reveal := .unset, rafPending := 0, observing := false }

/-- Result of running the ScrollReveal effect body: the state it leaves
behind, and whether the body threw. -/
structure SetupOutcome where
  state : SRState
  threw : Bool
deriving DecidableEq

/-- The effect body of ScrollReveal.tsx.  It returns early if the ref is
empty or reduced motion is preferred; otherwise it first sets the hidden
marker attribute, then constructs the IntersectionObserver (which throws if
that capability is missing, aborting the body before the frame callbacks are
scheduled), then schedules the double requestAnimationFrame chain. -/
def srSetup (reduced elPresent ioAvail : Bool) (d : Dir) : SetupOutcome :=
  if elPresent = false then { state := srInit, threw := false }
  else if reduced = true then { state := srInit, threw := false }
  else
    if ioAvail = false then
      { state := { srInit with reveal := .hiddenDir d }, threw := true }
    else
      { state := { srInit with reveal := .hiddenDir d, rafPending := 2 }, threw := false }

/-- Happenings delivered to one ScrollReveal instance: the next pending
animation-frame callback runs, the observer delivers an entry whose
isIntersecting field is b, or React unmounts the component (running the
cleanup, which only disconnects the observer). -/
inductive SREvent where
  | frame
  | intersect (b : Bool)
  | unmount
deriving DecidableEq

/-- One step of the ScrollReveal instance.  The intersection callback sets
the attribute to visible and unobserves on the first intersecting entry; the
second frame callback calls observe.  Unmount runs the cleanup: it
disconnects the observer but does not cancel pending frame callbacks. -/
def srStep (s : SRState) : SREvent → SRState
  | .frame =>
      if s.rafPending = 2 then { s with rafPending := 1 }
      else if s.rafPending = 1 then { s with rafPending := 0, observing := true }
      else s
  | .intersect b =>
      if s.observing then
        if b then { s with reveal := .visible, observing := false } else s
      else s
  | .unmount => { s with mounted := false, observing := false }

/-- Run a list of events from a state. -/
def srRun (s : SRState) : List SREvent → SRState
  | [] => s
  | e :: es => srRun (srStep s e) es

/-- Sequence of data-reveal values observed along a run. -/
def revealTrace (s : SRState) : List SREvent → List Reveal
  | [] => [s.reveal]
  | e :: es => s.reveal :: revealTrace (srStep s e) es

/-- Whether the browser can deliver an event in a state: an observer entry
is only delivered for an element currently observed, and an element that has
been unmounted (removed from the document) never reports isIntersecting. -/
def okEvent (s : SRState) : SREvent → Bool
  | .intersect true => s.observing && s.mounted
  | .intersect false => s.observing
  | .frame => true
  | .unmount => true

/-- Whether a whole event list is deliverable along the run it induces. -/
def okEvents (s : SRState) : List SREvent → Bool
  | [] => true
  | e :: es => okEvent s e && okEvents (srStep s e) es

/-- Each adjacent pair of observed attribute values is either unchanged or
the single forward transition from a hiding marker to visible. -/
def adjOk : List Reveal → Prop
  | [] => True
  | [_] => True
  | a :: b :: r =>
      (a = b ∨ ((∃ d, a = Reveal.hiddenDir d) ∧ b = .visible)) ∧ adjOk (b :: r)

/-- Invariant of reachable ScrollReveal states: while the attribute was
never set, no frame callback is pending and the observer is not active. -/
def srInv (s : SRState) : Prop :=
  s.reveal = .unset → s.rafPending = 0 ∧ s.observing = false

/-- The end-to-end timing scenario the specification asserts for a
40px-high target with every measurement succeeding: the chained timers fire
at 80, 1400, 2850 and 3270 ms; the 80 ms snapshot records size 18 while the
phase is still idle; the 1400 ms timer re-measures and starts rolling; then
dropping at 2850 ms; then done at 3270 ms, at which point the animated
element is removed from the render tree and no timer remains. -/
def heroTimeline (pr sr : Rect) : Prop :=
  let s0 := heroInit false [(some pr, some sr), (some pr, some sr)]
  let s1 := hStep s0 .fire
  let s2 := hStep s1 .fire
  let s3 := hStep s2 .fire
  let s4 := hStep s3 .fire
  (s1.now = 80 ∧ s1.phase = .idle ∧ s1.ball.size = 18 ∧ renderedBall s1 = true) ∧
  (s2.now = 1400 ∧ s2.phase = .rolling ∧ s2.ball = mkBall pr sr) ∧
  (s3.now = 2850 ∧ s3.phase = .dropping) ∧
  (s4.now = 3270 ∧ s4.phase = .done ∧ renderedBall s4 = false ∧ s4.timers = [])

/-- Concrete 40px-high target rectangle used as a witness input. -/
def rectP : Rect := { top := 100, left := 300, width := 20, height := 40 }

/-- Concrete container rectangle used as a witness input. -/
def rectS : Rect := { top := 0, left := 0, width := 800, height := 600 }

/-- Witness environment: two successful measurements of rectP inside rectS. -/
def envW : List (Option Rect × Option Rect) :=
  [(some rectP, some rectS), (some rectP, some rectS)]

/-! Helper lemmas about the hero sequencer. -/

theorem fireTimer_noTimers (s : HeroState) (h : s.timers = []) : fireTimer s = s := by
  rw [fireTimer, h]
  split <;> rfl

theorem hStep_fix (s : HeroState) (h1 : s.mounted = false) (h2 : s.timers = []) (i : HInput) :
    hStep s i = s := by
  cases i with
  | fire => exact fireTimer_noTimers s h2
  | unmount =>
      show { s with mounted := false, timers := [] } = s
      cases s
      simp_all

theorem heroRun_fix (more : List HInput) :
    ∀ s : HeroState, s.mounted = false → s.timers = [] → heroRun s more = s := by
  induction more with
  | nil => intro s _ _; rfl
  | cons i is ih =>
      intro s h1 h2
      show heroRun (hStep s i) is = s
      rw [hStep_fix s h1 h2 i]
      exact ih s h1 h2

theorem heroRun_inert (inputs : List HInput) :
    ∀ s : HeroState, s.timers = [] →
      (heroRun s inputs).phase = s.phase ∧ (heroRun s inputs).ball = s.ball ∧
      (heroRun s inputs).timers = [] := by
  induction inputs with
  | nil => intro s h; exact ⟨rfl, rfl, h⟩
  | cons i is ih =>
      intro s h
      have hstep : (hStep s i).phase = s.phase ∧ (hStep s i).ball = s.ball ∧
          (hStep s i).timers = [] := by
        cases i with
        | fire =>
            simp only [hStep]
            rw [fireTimer_noTimers s h]
            exact ⟨rfl, rfl, h⟩
        | unmount => exact ⟨rfl, rfl, rfl⟩
      obtain ⟨h1, h2, h3⟩ := hstep
      obtain ⟨g1, g2, g3⟩ := ih (hStep s i) h3
      exact ⟨g1.trans h1, g2.trans h2, g3⟩

theorem hStep_props (s : HeroState) (h : timerShape s) (i : HInput) :
    timerShape (hStep s i) ∧
    ((hStep s i).phase = s.phase ∨ (hStep s i).phase = nextPhase s.phase) ∧
    (s.phase ≠ .idle → (hStep s i).ball = s.ball) := by
  cases i with
  | unmount =>
      exact ⟨Or.inr (Or.inr (Or.inr (Or.inr rfl))), Or.inl rfl, fun _ => rfl⟩
  | fire =>
      simp only [hStep]
      cases hm : s.mounted with
      | false =>
          have hf : fireTimer s = s := by rw [fireTimer, hm]; simp
          rw [hf]
          exact ⟨h, Or.inl rfl, fun _ => rfl⟩
      | true =>
          rcases h with ⟨t₁, t₂, hts, hph⟩ | ⟨t, hts, hph⟩ | ⟨t, hts, hph⟩ | ⟨t, hts, hph⟩ | hts
          · have hf : fireTimer s = applyTimer s t₁ .snapshot [(t₂, .beginRoll)] := by
              rw [fireTimer, hm, hts]; rfl
            rw [hf]
            cases hmr : measure (s.env.headD (none, none)) with
            | none =>
                have happ : applyTimer s t₁ .snapshot [(t₂, .beginRoll)]
                    = { s with now := t₁, timers := [(t₂, TimerEv.beginRoll)],
                               env := s.env.tail } := by
                  simp only [applyTimer, hmr]
                rw [happ]
                exact ⟨Or.inr (Or.inl ⟨t₂, rfl, hph⟩), Or.inl rfl, fun _ => rfl⟩
            | some cfg =>
                have happ : applyTimer s t₁ .snapshot [(t₂, .beginRoll)]
                    = { s with now := t₁, timers := [(t₂, TimerEv.beginRoll)],
                               env := s.env.tail, ball := cfg } := by
                  simp only [applyTimer, hmr]
                rw [happ]
                exact ⟨Or.inr (Or.inl ⟨t₂, rfl, hph⟩), Or.inl rfl, fun hne => absurd hph hne⟩
          · have hf : fireTimer s = applyTimer s t .beginRoll [] := by
              rw [fireTimer, hm, hts]; rfl
            rw [hf]
            cases hmr : measure (s.env.headD (none, none)) with
            | none =>
                have happ : applyTimer s t .beginRoll []
                    = { s with now := t, timers := [], env := s.env.tail } := by
                  simp only [applyTimer, hmr]
                rw [happ]
                exact ⟨Or.inr (Or.inr (Or.inr (Or.inr rfl))), Or.inl rfl,
                  fun hne => absurd hph hne⟩
            | some cfg =>
                have happ : applyTimer s t .beginRoll []
                    = { s with now := t, timers := [(t + 1450, TimerEv.dropBall)],
                               env := s.env.tail, ball := cfg, phase := .rolling } := by
                  simp only [applyTimer, hmr, List.nil_append]
                rw [happ]
                refine ⟨Or.inr (Or.inr (Or.inl ⟨t + 1450, rfl, rfl⟩)), Or.inr ?_,
                  fun hne => absurd hph hne⟩
                rw [hph]; rfl
          · have hf : fireTimer s = applyTimer s t .dropBall [] := by
              rw [fireTimer, hm, hts]; rfl
            rw [hf]
            have happ : applyTimer s t .dropBall []
                = { s with now := t, timers := [(t + 420, TimerEv.finishDrop)],
                           phase := .dropping } := by
              simp only [applyTimer, List.nil_append]
            rw [happ]
            refine ⟨Or.inr (Or.inr (Or.inr (Or.inl ⟨t + 420, rfl, rfl⟩))), Or.inr ?_,
              fun _ => rfl⟩
            rw [hph]; rfl
          · have hf : fireTimer s = applyTimer s t .finishDrop [] := by
              rw [fireTimer, hm, hts]; rfl
            rw [hf]
            have happ : applyTimer s t .finishDrop []
                = { s with now := t, timers := [], phase := .done } := by
              simp only [applyTimer]
            rw [happ]
            refine ⟨Or.inr (Or.inr (Or.inr (Or.inr rfl))), Or.inr ?_, fun _ => rfl⟩
            rw [hph]; rfl
          · rw [fireTimer_noTimers s hts]
            exact ⟨Or.inr (Or.inr (Or.inr (Or.inr hts))), Or.inl rfl, fun _ => rfl⟩

theorem timerShape_run (inputs : List HInput) :
    ∀ s : HeroState, timerShape s → timerShape (heroRun s inputs) := by
  induction inputs with
  | nil => intro s h; exact h
  | cons i is ih =>
      intro s h
      show timerShape (heroRun (hStep s i) is)
      exact ih _ (hStep_props s h i).1

theorem heroInit_shape (reduced : Bool) (env : List (Option Rect × Option Rect)) :
    timerShape (heroInit reduced env) := by
  cases reduced with
  | false => exact Or.inl ⟨80, 1400, rfl, rfl⟩
  | true => exact Or.inr (Or.inr (Or.inr (Or.inr rfl)))

theorem phaseTrace_head (s : HeroState) (inputs : List HInput) :
    ∃ l, phaseTrace s inputs = s.phase :: l := by
  cases inputs <;> exact ⟨_, rfl⟩

theorem canonFrom_cons (p : Phase) (h : p ≠ nextPhase p) :
    canonFrom p = p :: canonFrom (nextPhase p) := by
  cases p
  · rfl
  · rfl
  · rfl
  · exact absurd rfl h

theorem collapse_trace (inputs : List HInput) :
    ∀ s : HeroState, timerShape s →
      IsFrontOf (collapse (phaseTrace s inputs)) (canonFrom s.phase) := by
  induction inputs with
  | nil =>
      intro s _
      refine ⟨(canonFrom s.phase).tail, ?_⟩
      cases hp : s.phase <;> simp [phaseTrace, collapse, canonFrom, hp]
  | cons i is ih =>
      intro s h
      obtain ⟨l, hl⟩ := phaseTrace_head (hStep s i) is
      have hshape := (hStep_props s h i).1
      have hph := (hStep_props s h i).2.1
      have hcoll : phaseTrace s (i :: is) = s.phase :: phaseTrace (hStep s i) is := rfl
      by_cases heq : s.phase = (hStep s i).phase
      · have hc : collapse (phaseTrace s (i :: is)) = collapse (phaseTrace (hStep s i) is) := by
          rw [hcoll, hl, collapse, if_pos heq]
        rw [hc, heq]
        exact ih _ hshape
      · have hnext : (hStep s i).phase = nextPhase s.phase := by
          rcases hph with h1 | h2
          · exact absurd h1.symm heq
          · exact h2
        have hc : collapse (phaseTrace s (i :: is))
            = s.phase :: collapse (phaseTrace (hStep s i) is) := by
          rw [hcoll, hl, collapse, if_neg heq]
        obtain ⟨tl, htl⟩ := ih _ hshape
        refine ⟨tl, ?_⟩
        rw [hc]
        have hpne : s.phase ≠ nextPhase s.phase := fun hcon => heq (hcon.trans hnext.symm)
        rw [canonFrom_cons s.phase hpne, ← hnext]
        rw [List.cons_append, htl]

/-! Helper lemmas about the scroll reveal controller. -/

theorem srStep_reveal (s : SRState) (hinv : srInv s) (e : SREvent) :
    ((srStep s e).reveal = s.reveal ∨
      ((∃ d, s.reveal = Reveal.hiddenDir d) ∧ (srStep s e).reveal = .visible)) ∧
    srInv (srStep s e) := by
  cases e with
  | frame =>
      rw [srStep]
      by_cases h2 : s.rafPending = 2
      · rw [if_pos h2]
        refine ⟨Or.inl rfl, fun hu => ?_⟩
        exact absurd ((hinv hu).1.symm.trans h2) (by decide)
      · rw [if_neg h2]
        by_cases h1 : s.rafPending = 1
        · rw [if_pos h1]
          refine ⟨Or.inl rfl, fun hu => ?_⟩
          exact absurd ((hinv hu).1.symm.trans h1) (by decide)
        · rw [if_neg h1]
          exact ⟨Or.inl rfl, hinv⟩
  | intersect b =>
      rw [srStep]
      by_cases ho : s.observing = true
      · rw [if_pos ho]
        cases b with
        | true =>
            refine ⟨?_, fun hu => Reveal.noConfusion hu⟩
            cases hr : s.reveal with
            | unset => exact absurd (((hinv hr).2).symm.trans ho) (by decide)
            | hiddenDir d => exact Or.inr ⟨⟨d, rfl⟩, rfl⟩
            | visible => exact Or.inl rfl
        | false =>
            exact ⟨Or.inl rfl, hinv⟩
      · rw [if_neg ho]
        exact ⟨Or.inl rfl, hinv⟩
  | unmount =>
      exact ⟨Or.inl rfl, fun hu => ⟨(hinv hu).1, rfl⟩⟩

theorem revealTrace_head (s : SRState) (events : List SREvent) :
    ∃ l, revealTrace s events = s.reveal :: l := by
  cases events <;> exact ⟨_, rfl⟩

theorem adjOk_trace (events : List SREvent) :
    ∀ s : SRState, srInv s → adjOk (revealTrace s events) := by
  induction events with
  | nil => intro s _; trivial
  | cons e es ih =>
      intro s hinv
      obtain ⟨l, hl⟩ := revealTrace_head (srStep s e) es
      have hstep := srStep_reveal s hinv e
      show adjOk (s.reveal :: revealTrace (srStep s e) es)
      rw [hl]
      refine ⟨?_, ?_⟩
      · rcases hstep.1 with h | ⟨hd, hv⟩
        · exact Or.inl h.symm
        · exact Or.inr ⟨hd, hv⟩
      · rw [← hl]
        exact ih _ hstep.2

theorem srStep_unmounted (s : SRState) (h : s.mounted = false) (e : SREvent)
    (hok : okEvent s e = true) :
    (srStep s e).mounted = false ∧ (srStep s e).reveal = s.reveal := by
  cases e with
  | frame =>
      rw [srStep]
      by_cases h2 : s.rafPending = 2
      · rw [if_pos h2]; exact ⟨h, rfl⟩
      · rw [if_neg h2]
        by_cases h1 : s.rafPending = 1
        · rw [if_pos h1]; exact ⟨h, rfl⟩
        · rw [if_neg h1]; exact ⟨h, rfl⟩
  | intersect b =>
      cases b with
      | true =>
          exfalso
          have hobs : (s.observing && s.mounted) = true := hok
          rw [h] at hobs
          simp at hobs
      | false =>
          rw [srStep]
          by_cases ho : s.observing = true
          · rw [if_pos ho]; exact ⟨h, rfl⟩
          · rw [if_neg ho]; exact ⟨h, rfl⟩
  | unmount => exact ⟨rfl, rfl⟩

theorem srRun_unmounted (post : List SREvent) :
    ∀ s : SRState, s.mounted = false → okEvents s post = true →
      (srRun s post).reveal = s.reveal ∧ (srRun s post).mounted = false := by
  induction post with
  | nil => intro s h _; exact ⟨rfl, h⟩
  | cons e es ih =>
      intro s h hok
      have h12 : okEvent s e = true ∧ okEvents (srStep s e) es = true := by
        simpa [okEvents] using hok
      obtain ⟨hm, hr⟩ := srStep_unmounted s h e h12.1
      obtain ⟨g1, g2⟩ := ih (srStep s e) hm h12.2
      exact ⟨g1.trans hr, g2⟩

theorem srRun_inactive (es : List SREvent) :
    ∀ s : SRState, s.rafPending = 0 → s.observing = false →
      (srRun s es).reveal = s.reveal ∧ (srRun s es).rafPending = 0 ∧
      (srRun s es).observing = false := by
  induction es with
  | nil => intro s h0 h1; exact ⟨rfl, h0, h1⟩
  | cons e es ih =>
      intro s h0 h1
      have hstep : (srStep s e).reveal = s.reveal ∧ (srStep s e).rafPending = 0 ∧
          (srStep s e).observing = false := by
        cases e with
        | frame =>
            rw [srStep]
            rw [if_neg (by rw [h0]; decide), if_neg (by rw [h0]; decide)]
            exact ⟨rfl, h0, h1⟩
        | intersect b =>
            rw [srStep]
            rw [if_neg (by rw [h1]; decide)]
            exact ⟨rfl, h0, h1⟩
        | unmount => exact ⟨rfl, h0, rfl⟩
      obtain ⟨a, b2, c⟩ := hstep
      obtain ⟨g1, g2, g3⟩ := ih (srStep s e) b2 c
      exact ⟨g1.trans a, g2, g3⟩

/-! Claim theorems. -/

/-- C1: for every execution of the hero sequencer (any reduced-motion
setting, any stream of measurement results, timers fired and a possible
unmount interleaved at any points), the sequence of observed phase values,
with adjacent repetitions collapsed, is an initial segment of exactly
idle, rolling, dropping, done: the phase only advances forward along this
order, never skips, and never moves backward. -/
theorem hero_phase_forward (reduced : Bool) (env : List (Option Rect × Option Rect))
    (inputs : List HInput) :
    IsFrontOf (collapse (phaseTrace (heroInit reduced env) inputs)) phaseOrder := by
  have h := collapse_trace inputs (heroInit reduced env) (heroInit_shape reduced env)
  have hcanon : canonFrom (heroInit reduced env).phase = phaseOrder := rfl
  rw [hcanon] at h
  exact h

/-- C2 counterexample: the claimed formula size = max(45 percent of target
height, 12) is false as stated, because the code rounds 45 percent of the
height to the nearest integer before taking the max.  For a target of
height 30 the code computes size 14, while the unrounded formula gives
13.5. -/
theorem hero_size_unrounded_cex :
    (mkBall { top := 0, left := 0, width := 100, height := 30 }
        { top := 0, left := 0, width := 500, height := 400 }).size = 14 ∧
    specSize 30 = 27/2 ∧ ¬((27/2 : ℚ) = 14) := by
  refine ⟨?_, ?_, by norm_num⟩
  · show ballSize { top := 0, left := 0, width := 100, height := 30 } = 14
    rw [ballSize, jsRound]
    norm_num
  · rw [specSize]
    norm_num

/-- C2 (amended): for every successful measurement, size = max(the nearest
integer to 45 percent of the target height, 12) — in particular at least 12,
and exactly 12 for a 10px-high target; startX = -(size + 16); targetX is the
horizontal center of the target relative to the container minus half the
size; and the top offset is the target top relative to the container plus
half the residual height difference. -/
theorem hero_geometry_contract (pr sr : Rect) :
    (mkBall pr sr).size = max ((jsRound (pr.height * (45/100)) : ℤ) : ℚ) 12 ∧
    (mkBall pr sr).startX = -((mkBall pr sr).size + 16) ∧
    (mkBall pr sr).targetX
      = (pr.left - sr.left + pr.width / 2) - (mkBall pr sr).size / 2 ∧
    (mkBall pr sr).top = (pr.top - sr.top) + (pr.height - (mkBall pr sr).size) / 2 ∧
    12 ≤ (mkBall pr sr).size ∧
    (pr.height = 10 → (mkBall pr sr).size = 12) := by
  refine ⟨rfl, rfl, ?_, rfl, le_max_right _ _, ?_⟩
  · show pr.left - sr.left + (pr.width - ballSize pr) / 2
        = (pr.left - sr.left + pr.width / 2) - ballSize pr / 2
    ring
  · intro h10
    show ballSize pr = 12
    rw [ballSize, jsRound, h10]
    norm_num

theorem hero_geometry_contract_witness :
    (mkBall { top := 0, left := 0, width := 100, height := 10 }
        { top := 0, left := 0, width := 500, height := 400 }).size = 12 :=
  (hero_geometry_contract { top := 0, left := 0, width := 100, height := 10 }
    { top := 0, left := 0, width := 500, height := 400 }).2.2.2.2.2 rfl

/-- C3: mounted at t = 0 with reduced motion disabled, every measurement
succeeding and a 40px-high target: at 80 ms the snapshot records size 18
while still idle; at 1400 ms the phase becomes rolling after one final
re-measurement; at 2850 ms it becomes dropping; at 3270 ms it becomes done
and the animated element is removed from the render tree. -/
theorem hero_timeline (pr sr : Rect) (h40 : pr.height = 40) : heroTimeline pr sr := by
  refine ⟨⟨rfl, rfl, ?_, rfl⟩, ⟨rfl, rfl, rfl⟩, ⟨rfl, rfl⟩, ⟨rfl, rfl, rfl, rfl⟩⟩
  show ballSize pr = 18
  rw [ballSize, jsRound, h40]
  norm_num

theorem hero_timeline_witness : heroTimeline rectP rectS :=
  hero_timeline rectP rectS rfl

/-- C4: for the scroll reveal controller, along every event sequence the
observed attribute either stays unchanged or makes the single forward step
from the hiding marker to visible — so the hidden-to-visible transition
happens at most once and visible never reverts — and an intersecting entry
always leaves the observer unobserving (cancelled immediately), setting the
attribute to visible whenever the element was being observed. -/
theorem reveal_monotone (reduced elPresent ioAvail : Bool) (d : Dir)
    (events : List SREvent) :
    adjOk (revealTrace (srSetup reduced elPresent ioAvail d).state events) ∧
    (∀ s : SRState, (srStep s (.intersect true)).observing = false ∧
      (s.observing = true → (srStep s (.intersect true)).reveal = .visible)) := by
  constructor
  · refine adjOk_trace events _ ?_
    cases reduced <;> cases elPresent <;> cases ioAvail <;>
      first
        | exact fun _ => ⟨rfl, rfl⟩
        | exact fun hu => Reveal.noConfusion hu
  · intro s
    constructor
    · rw [srStep]
      by_cases ho : s.observing = true
      · rw [if_pos ho]; rfl
      · rw [if_neg ho]; simpa using ho
    · intro ho
      rw [srStep, if_pos ho]; rfl

theorem reveal_monotone_witness :
    (srStep { mounted := true, reveal := Reveal.hiddenDir Dir.left, rafPending := 0,
              observing := true } (.intersect true)).observing = false ∧
    (srStep { mounted := true, reveal := Reveal.hiddenDir Dir.left, rafPending := 0,
              observing := true } (.intersect true)).reveal = .visible :=
  ⟨((reveal_monotone false true true .left []).2 _).1,
    ((reveal_monotone false true true .left []).2 _).2 rfl⟩

/-- C5: a failed measurement (either bounding box unavailable) yields null
exactly when one of the two boxes is missing, and firing a measuring timer
whose measurement fails leaves the ball geometry and the phase unchanged —
no zero default is applied; the remaining timer chain is what it was. -/
theorem hero_measure_failure :
    (∀ r₁ r₂ : Option Rect, measure (r₁, r₂) = none ↔ (r₁ = none ∨ r₂ = none)) ∧
    (∀ s : HeroState, ∀ t ev rest, s.mounted = true → s.timers = (t, ev) :: rest →
      (ev = TimerEv.snapshot ∨ ev = TimerEv.beginRoll) →
      measure (s.env.headD (none, none)) = none →
      (fireTimer s).ball = s.ball ∧ (fireTimer s).phase = s.phase ∧
      (fireTimer s).timers = rest) := by
  constructor
  · intro r₁ r₂
    cases r₁ <;> cases r₂ <;> simp [measure]
  · intro s t ev rest hm hts hev hmr
    have hf : fireTimer s = applyTimer s t ev rest := by
      rw [fireTimer, hm, hts]; rfl
    rw [hf]
    rcases hev with h | h <;> subst h
    · have happ : applyTimer s t .snapshot rest
          = { s with now := t, timers := rest, env := s.env.tail } := by
        simp only [applyTimer, hmr]
      rw [happ]
      exact ⟨rfl, rfl, rfl⟩
    · have happ : applyTimer s t .beginRoll rest
          = { s with now := t, timers := rest, env := s.env.tail } := by
        simp only [applyTimer, hmr]
      rw [happ]
      exact ⟨rfl, rfl, rfl⟩

theorem hero_measure_failure_witness :
    measure (none, none) = none ∧
    (fireTimer (heroInit false [(none, none)])).ball
      = (heroInit false [(none, none)]).ball ∧
    (fireTimer (heroInit false [(none, none)])).phase
      = (heroInit false [(none, none)]).phase :=
  ⟨(hero_measure_failure.1 none none).mpr (Or.inl rfl),
    (hero_measure_failure.2 (heroInit false [(none, none)]) 80 .snapshot
      [(1400, .beginRoll)] rfl rfl (Or.inl rfl) rfl).1,
    (hero_measure_failure.2 (heroInit false [(none, none)]) 80 .snapshot
      [(1400, .beginRoll)] rfl rfl (Or.inl rfl) rfl).2.1⟩

/-- C6: evaluation of the code at the failing input.  With the element
mounted and reduced motion off but the viewport-intersection capability
unavailable, the effect body throws (the IntersectionObserver constructor is
called unconditionally) after having already set the hiding marker, and the
content then stays in the hidden pre-reveal state forever — contradicting
the claim that the controller degrades to always-visible without
throwing. -/
theorem reveal_io_unavailable_throws (d : Dir) (events : List SREvent) :
    (srSetup false true false d).threw = true ∧
    (srSetup false true false d).state.reveal = .hiddenDir d ∧
    (srRun (srSetup false true false d).state events).reveal = .hiddenDir d := by
  refine ⟨rfl, rfl, ?_⟩
  exact (srRun_inactive events (srSetup false true false d).state rfl rfl).1

/-- C7 counterexample: with reduced motion enabled at mount the animated
element is not absent from the render tree — the phase stays idle, which is
not done, so the conditional render keeps the (invisible) element. -/
theorem hero_reduced_motion_cex :
    renderedBall (heroInit true []) = true ∧ (heroInit true []).phase = .idle :=
  ⟨rfl, rfl⟩

/-- C7 (amended): with reduced motion enabled at mount, no timer is ever
scheduled and no phase progression occurs under any sequence of events: the
phase stays idle, the geometry stays at its initial value, and the object is
never visible — its style keeps opacity 0 and the default offscreen left
position — although the fully transparent element remains in the render
tree (removal happens only in the done phase, which is never reached). -/
theorem hero_reduced_motion_skip (env : List (Option Rect × Option Rect))
    (inputs : List HInput) :
    (heroInit true env).timers = [] ∧
    (heroRun (heroInit true env) inputs).phase = .idle ∧
    (heroRun (heroInit true env) inputs).ball = initBall ∧
    (heroRun (heroInit true env) inputs).timers = [] ∧
    (wrapStyle (heroRun (heroInit true env) inputs)).opacity = some 0 ∧
    (wrapStyle (heroRun (heroInit true env) inputs)).leftPos = some initBall.startX ∧
    renderedBall (heroRun (heroInit true env) inputs) = true := by
  have h0 : (heroInit true env).timers = [] := rfl
  obtain ⟨h1, h2, h3⟩ := heroRun_inert inputs (heroInit true env) h0
  have h1idle : (heroRun (heroInit true env) inputs).phase = .idle := h1
  refine ⟨h0, h1idle, h2, h3, ?_, ?_, ?_⟩
  · rw [wrapStyle, h1idle]
  · rw [wrapStyle, h1idle, h2]; rfl
  · rw [renderedBall, h1idle]

/-- C8: unmounting the hero sequencer clears every pending timer of the
chain, and afterwards firing any number of timer or unmount events produces
no further state change at all: no orphaned callback can run or mutate state
after unmount. -/
theorem hero_unmount_cancels (reduced : Bool) (env : List (Option Rect × Option Rect))
    (inputs more : List HInput) :
    (hStep (heroRun (heroInit reduced env) inputs) .unmount).timers = [] ∧
    heroRun (hStep (heroRun (heroInit reduced env) inputs) .unmount) more
      = hStep (heroRun (heroInit reduced env) inputs) .unmount :=
  ⟨rfl, heroRun_fix more _ rfl rfl⟩

/-- C9 counterexample: unmounting immediately after setup and then letting
the two animation-frame callbacks run shows that those callbacks are not
cancelled by the cleanup: they fire after unmount and re-register the
observation (observing becomes true), so the state does change after
unmount, contradicting the claim that no dangling callback fires. -/
theorem reveal_unmount_raf_cex :
    (srRun (srSetup false true true .left).state [.unmount, .frame, .frame]).observing
      = true ∧
    srRun (srSetup false true true .left).state [.unmount, .frame, .frame]
      ≠ srRun (srSetup false true true .left).state [.unmount] :=
  ⟨rfl, by decide⟩

/-- C9 (amended): on unmount the observer is disconnected (observation
stops); the pending animation-frame callbacks are not cancelled and may
still run afterwards, re-invoking observe on the disconnected observer, but
under every event sequence the browser can actually deliver after unmount
(a detached element never reports an intersection) the reveal attribute
never changes from its unmount-time value, and the instance stays
unmounted. -/
theorem reveal_unmount_no_reveal_change (reduced elPresent ioAvail : Bool) (d : Dir)
    (pre post : List SREvent)
    (h : okEvents (srStep (srRun (srSetup reduced elPresent ioAvail d).state pre) .unmount)
        post = true) :
    (srStep (srRun (srSetup reduced elPresent ioAvail d).state pre) .unmount).observing
      = false ∧
    (srRun (srStep (srRun (srSetup reduced elPresent ioAvail d).state pre) .unmount)
        post).reveal
      = (srStep (srRun (srSetup reduced elPresent ioAvail d).state pre) .unmount).reveal ∧
    (srRun (srStep (srRun (srSetup reduced elPresent ioAvail d).state pre) .unmount)
        post).mounted = false := by
  obtain ⟨g1, g2⟩ := srRun_unmounted post
    (srStep (srRun (srSetup reduced elPresent ioAvail d).state pre) .unmount) rfl h
  exact ⟨rfl, g1, g2⟩

theorem reveal_unmount_no_reveal_change_witness :
    (srRun (srStep (srRun (srSetup false true true .left).state []) .unmount)
        [.frame, .frame, .intersect false]).reveal
      = (srStep (srRun (srSetup false true true .left).state []) .unmount).reveal ∧
    (srRun (srStep (srRun (srSetup false true true .left).state []) .unmount)
        [.frame, .frame, .intersect false]).mounted = false :=
  ⟨(reveal_unmount_no_reveal_change false true true .left [] [.frame, .frame,
      .intersect false] (by decide)).2.1,
    (reveal_unmount_no_reveal_change false true true .left [] [.frame, .frame,
      .intersect false] (by decide)).2.2⟩

/-- C10: geometry may be recomputed while the phase is idle, but in every
reachable state whose phase has left idle, no further step changes the ball
geometry (in particular startX and targetX are frozen); and the transition
into rolling itself performs exactly one final re-measurement, installing
the freshly measured geometry as it sets the phase to rolling. -/
theorem hero_geometry_frozen (reduced : Bool) (env : List (Option Rect × Option Rect))
    (inputs : List HInput) (i : HInput)
    (h : (heroRun (heroInit reduced env) inputs).phase ≠ .idle) :
    (hStep (heroRun (heroInit reduced env) inputs) i).ball
      = (heroRun (heroInit reduced env) inputs).ball ∧
    (∀ s : HeroState, ∀ t pr sr rest, s.mounted = true →
      s.timers = (t, TimerEv.beginRoll) :: rest →
      s.env.headD (none, none) = (some pr, some sr) →
      (fireTimer s).ball = mkBall pr sr ∧ (fireTimer s).phase = .rolling) := by
  constructor
  · exact (hStep_props _ (timerShape_run inputs _ (heroInit_shape reduced env)) i).2.2 h
  · intro s t pr sr rest hm hts henv
    have hf : fireTimer s = applyTimer s t .beginRoll rest := by
      rw [fireTimer, hm, hts]; rfl
    rw [hf]
    have hmr : measure (s.env.headD (none, none)) = some (mkBall pr sr) := by
      rw [henv]; rfl
    have happ : applyTimer s t .beginRoll rest
        = { s with now := t, timers := rest ++ [(t + 1450, TimerEv.dropBall)],
                   env := s.env.tail, ball := mkBall pr sr, phase := .rolling } := by
      simp only [applyTimer, hmr]
    rw [happ]
    exact ⟨rfl, rfl⟩

theorem hero_geometry_frozen_witness :
    (hStep (heroRun (heroInit false envW) [.fire, .fire]) .fire).ball
      = (heroRun (heroInit false envW) [.fire, .fire]).ball :=
  (hero_geometry_frozen false envW [.fire, .fire] .fire (by decide)).1

end Fendo
